import Mathlib

/-!
Verification development for the arXade embedding-and-retrieval core.

The Python sources are shallowly embedded here:
  * `src/data/embed.py` — ingestion pipeline (namespace `ArXade.Data`);
  * `src/backend/main.py` — query-time retrieval service (namespace `ArXade.Backend`).

Floating point values are modelled as rationals; `numpy.round` is modelled by
round-half-to-even, `numpy.clip(·, -1.0, 1.0)` by a rational clamp, and
`astype(numpy.int8)` by wrapping into the signed byte range.
-/

namespace ArXade

/-- Model of `numpy.clip(x, -1.0, 1.0)` for one component. -/
def clamp (x : ℚ) : ℚ := if x < -1 then -1 else if x > 1 then 1 else x

/-- Model of `numpy.round` on one component: round to nearest, ties to even. -/
def roundHalfEven (x : ℚ) : ℤ :=
  if 2 * x < 2 * ⌊x⌋ + 1 then ⌊x⌋
  else if 2 * x > 2 * ⌊x⌋ + 1 then ⌊x⌋ + 1
  else if ⌊x⌋ % 2 = 0 then ⌊x⌋ else ⌊x⌋ + 1

/-- Model of `astype(numpy.int8)` on one integer: wrap into [-128, 127]. -/
def toInt8 (z : ℤ) : ℤ := (z + 128) % 256 - 128

namespace Data

/-- Embedding of `create_int8_embedding` from `src/data/embed.py` (lines 21-25):
clip the vector to [-1.0, 1.0], multiply by 127.0, round, cast to int8, to list. -/
def create_int8_embedding (float_embedding : List ℚ) : List ℤ :=
  let clamped_embedding := float_embedding.map clamp
  clamped_embedding.map (fun c => toInt8 (roundHalfEven (c * 127)))

end Data

namespace Backend

/-- Embedding of `create_int8_embedding` from `src/backend/main.py` (lines 200-212):
clip the vector to [-1.0, 1.0], multiply by 127.0, round, cast to int8, to list. -/
def create_int8_embedding (float_embedding : List ℚ) : List ℤ :=
  let clamped_embedding := float_embedding.map clamp
  clamped_embedding.map (fun c => toInt8 (roundHalfEven (c * 127)))

/-- Priority categories for arXiv CS papers (`src/backend/main.py` line 315). -/
def priority_categories : List String :=
  ["cs.cv", "cs.lg", "cs.cl", "cs.ai", "cs.ne", "cs.ro"]

/-- The stored `categories` field of a document: either a scalar or an array. -/
inductive CategoriesField where
  | scalar : String → CategoriesField
  | array : List String → CategoriesField
deriving DecidableEq

/-- The `$addFields` stage normalizing `categories` to an array
(`src/backend/main.py` lines 330-340): wrap a scalar, keep an array. -/
def categoryArray : CategoriesField → List String
  | .scalar s => [s]
  | .array l => l

/-- The `$filter` over the priority list in the `primary_category` stage
(`src/backend/main.py` lines 346-356): priority entries present in the array. -/
def matchedCategories (cats : List String) : List String :=
  priority_categories.filter (fun p => p ∈ cats)

/-- The `primary_category` computation (`src/backend/main.py` lines 342-367):
first matched priority entry, else the first element of the category array. -/
def primary_category (cats : List String) : String :=
  match matchedCategories cats with
  | [] => cats.headI
  | m :: _ => m

end Backend

namespace Backend

/-- Embedding of the `SearchQuery` request model (`src/backend/main.py`
lines 147-150): a query string and a result limit. The pydantic constraints
(`min_length=1, max_length=500` on `query`; `ge=1, le=100` on `limit`)
are captured by `validSearchQuery`. -/
structure SearchQuery where
  query : String
  limit : ℤ
deriving DecidableEq

/-- The pydantic field constraints on `SearchQuery` (`src/backend/main.py`
lines 149-150). -/
def validSearchQuery (q : SearchQuery) : Bool :=
  decide (1 ≤ q.query.length) && decide (q.query.length ≤ 500)
    && decide (1 ≤ q.limit) && decide (q.limit ≤ 100)

/-- External calls the `/search` endpoint can make, in order: the MongoDB
liveness ping, the Gemini query-embedding call, and the vector-search
aggregation. -/
inductive ExternalCall where
  | mongoPing
  | embedQuery (text : String)
  | vectorSearch (queryVector : List ℤ) (numCandidates : ℤ) (limit : ℤ)
deriving DecidableEq

/-- Possible responses of the `/search` endpoint, by status. -/
inductive SearchResponse where
  | validationError
  | serviceUnavailable
  | internalError
  | ok (results : List String)
deriving DecidableEq

/-- Embedding of the `/search` request path (`src/backend/main.py`
lines 270-394) together with the framework's request validation: FastAPI
validates the `SearchQuery` body against the pydantic constraints before the
endpoint body runs; the endpoint then pings MongoDB, embeds the query via
Gemini (`get_query_embedding`, returning nothing on failure), and runs the
vector-search aggregation. Oracles supply the outcome of each external call;
the returned list records the external calls actually issued. -/
def handleSearchRequest (pingOk : Bool) (embedResult : Option (List ℚ))
    (searchResults : List String) (q : SearchQuery) :
    SearchResponse × List ExternalCall :=
  if validSearchQuery q = false then (.validationError, [])
  else if pingOk = false then (.serviceUnavailable, [.mongoPing])
  else
    match embedResult with
    | none => (.internalError, [.mongoPing, .embedQuery q.query])
    | some v =>
      let query_embedding := create_int8_embedding v
      if query_embedding = [] then (.internalError, [.mongoPing, .embedQuery q.query])
      else
        (.ok searchResults,
          [.mongoPing, .embedQuery q.query,
            .vectorSearch query_embedding (min 500 (q.limit * 10)) q.limit])

end Backend

namespace Data

/-- A parsed input record from the JSONL corpus: the metadata fields the
pipeline reads (`src/data/embed.py` lines 119-123). Other fields of the JSON
object are carried along unchanged and are irrelevant to the embedded logic. -/
structure PaperItem where
  title : String
  authors : String
  abstract : String
deriving DecidableEq

/-- One line of the input file: either unparseable JSON or a parsed record. -/
inductive InputLine where
  | malformed : InputLine
  | record : PaperItem → InputLine
deriving DecidableEq

/-- Model of Python `str.strip()` on a character list: drop leading and
trailing whitespace. -/
def pyStrip (cs : List Char) : List Char :=
  ((cs.dropWhile Char.isWhitespace).reverse.dropWhile Char.isWhitespace).reverse

/-- The text the pipeline embeds for a record (`src/data/embed.py` line 126):
title, authors and abstract concatenated with spaces, then stripped. -/
def text_to_embed (p : PaperItem) : String :=
  String.mk (pyStrip (p.title ++ " " ++ p.authors ++ " " ++ p.abstract).data)

/-- Outcome of one `genai.embed_content` call (`src/data/embed.py`
lines 33-39): a response carrying a list of float vectors (one hoped-for
vector per input text; `None`/missing is modelled as the empty list), or an
exception, which is fatal exactly when the API key is invalid
(lines 65-72). -/
inductive ApiOutcome where
  | success : List (List ℚ) → ApiOutcome
  | apiError : Bool → ApiOutcome
deriving DecidableEq

/-- The mutable `processed_stats` dictionary (`src/data/embed.py`
lines 87-93). -/
structure Stats where
  count : ℕ
  since_last_log : ℕ
  requests_in_window : ℕ
  window_start_time : ℚ
  limit : Option ℕ
deriving DecidableEq

/-- Truthiness of `processed_stats['limit']` in Python: `None` and `0` are
falsy. -/
def limitActive : Option ℕ → Bool
  | none => false
  | some n => decide (n ≠ 0)

/-- The guard `processed_stats['limit'] and processed_stats['count'] >=
processed_stats['limit']` (`src/data/embed.py` lines 43 and 114). -/
def limitReached (s : Stats) : Bool :=
  limitActive s.limit && decide (s.limit.getD 0 ≤ s.count)

/-- An output record: the original item plus its `embedding_int8` field
(`src/data/embed.py` lines 48-51). -/
structure OutputRecord where
  item : PaperItem
  embedding_int8 : List ℤ
deriving DecidableEq

/-- The write loop inside `process_batch` (`src/data/embed.py` lines 42-58):
for each (item, float vector) pair, stop if the item limit is reached
(returning from `process_batch`, so the per-batch request counter is not
incremented: the Bool result is false), otherwise quantize, write the record
and bump the counters. -/
def writeLoop (pairs : List (PaperItem × List ℚ)) (s : Stats) :
    List OutputRecord × Stats × Bool :=
  match pairs with
  | [] => ([], s, true)
  | (item, emb) :: rest =>
    if limitReached s then ([], s, false)
    else
      let s1 : Stats :=
        { s with
          count := s.count + 1
          since_last_log := if 100 ≤ s.since_last_log + 1 then 0 else s.since_last_log + 1 }
      let r := writeLoop rest s1
      (⟨item, create_int8_embedding emb⟩ :: r.1, r.2)

/-- Result of one `process_batch` call: records written to the output file,
the updated stats, and whether the run was aborted (`exit(1)` on an invalid
API key). -/
structure PBResult where
  records : List OutputRecord
  stats : Stats
  aborted : Bool
deriving DecidableEq

/-- Embedding of `process_batch` (`src/data/embed.py` lines 27-72): an empty
batch returns immediately; a well-formed response whose vector count matches
the text count is written out record by record (the request counter is bumped
only if the write loop was not cut short by the item limit); a count mismatch
discards the whole batch with a warning; an exception bumps the request
counter and sleeps, and exits the program if the API key is invalid. -/
def process_batch (batch_texts : List String) (batch_items : List PaperItem)
    (outcome : ApiOutcome) (s : Stats) : PBResult :=
  if batch_texts = [] then ⟨[], s, false⟩
  else
    match outcome with
    | .success embs =>
      if embs ≠ [] ∧ embs.length = batch_texts.length then
        let r := writeLoop (batch_items.zip embs) s
        if r.2.2 then
          ⟨r.1, { r.2.1 with requests_in_window := r.2.1.requests_in_window + 1 }, false⟩
        else ⟨r.1, r.2.1, false⟩
      else ⟨[], s, false⟩
    | .apiError keyInvalid =>
      if keyInvalid then ⟨[], s, true⟩
      else ⟨[], { s with requests_in_window := s.requests_in_window + 1 }, false⟩

/-- The rate-limiting preamble run before each batch call
(`src/data/embed.py` lines 135-147 and 158-169): reset the window if 60
seconds have elapsed; if the per-minute quota is used up, sleep until the
window resets. `t` is the value of `time.time()` at the check; the returned
rational is the time at which the batch call is then issued (sleeping for `d`
seconds advances the clock by exactly `d`). -/
def rateGate (rate_limit : ℕ) (t : ℚ) (s : Stats) : ℚ × Stats :=
  let s1 : Stats :=
    if 60 ≤ t - s.window_start_time then
      { s with window_start_time := t, requests_in_window := 0 }
    else s
  if rate_limit ≤ s1.requests_in_window then
    let wait := 60 - (t - s1.window_start_time)
    let t2 := if 0 < wait then t + wait else t
    (t2, { s1 with window_start_time := t2, requests_in_window := 0 })
  else (t, s1)

/-- One batch submission as performed by the main loop: rate gate, then
`process_batch`. Also records the issued call's time and the post-gate value
of `requests_in_window`. -/
structure BatchStep where
  records : List OutputRecord
  stats : Stats
  call : ℚ × ℕ
  aborted : Bool
deriving DecidableEq

def submitBatch (rate_limit : ℕ) (t : ℚ) (outcome : ApiOutcome)
    (texts : List String) (items : List PaperItem) (s : Stats) : BatchStep :=
  let g := rateGate rate_limit t s
  let pb := process_batch texts items outcome g.2
  ⟨pb.records, pb.stats, (g.1, g.2.requests_in_window), pb.aborted⟩

/-- Result of a pipeline run: the records written to the output file, the
final stats, the issued batch calls (time and post-gate window count, in
order), and whether the run was aborted. -/
structure RunResult where
  out : List OutputRecord
  stats : Stats
  calls : List (ℚ × ℕ)
  aborted : Bool
deriving DecidableEq

/-- The trailing-batch flush after the main loop (`src/data/embed.py`
lines 157-171): submit the leftover batch unless it is empty or the item
limit has been reached. -/
def flushTail (rate_limit : ℕ) (times : ℕ → ℚ) (outcomes : ℕ → ApiOutcome) (k : ℕ)
    (texts : List String) (items : List PaperItem) (s : Stats) : RunResult :=
  if texts ≠ [] ∧ (limitActive s.limit = false ∨ s.count < s.limit.getD 0) then
    let b := submitBatch rate_limit (times k) (outcomes k) texts items s
    ⟨b.records, b.stats, [b.call], b.aborted⟩
  else ⟨[], s, [], false⟩

/-- The main read loop of `generate_and_quantize_embeddings`
(`src/data/embed.py` lines 110-171). `lines` is the remaining input, `i` the
current line index, `start` the resume offset, `texts`/`items` the batch
being accumulated, `k` the index of the next batch call (used to address the
time and outcome oracles). Skipped lines: index below `start`, unparseable
JSON, and records with empty concatenated text. A full batch goes through the
rate gate and `process_batch`; reaching the item limit breaks out of the
loop; input exhaustion and loop break both fall through to the trailing
flush. -/
def ingestLoop (rate_limit : ℕ) (times : ℕ → ℚ) (outcomes : ℕ → ApiOutcome)
    (lines : List InputLine) (i start bsize : ℕ)
    (texts : List String) (items : List PaperItem) (s : Stats) (k : ℕ) : RunResult :=
  match lines with
  | [] => flushTail rate_limit times outcomes k texts items s
  | l :: rest =>
    if i < start then
      ingestLoop rate_limit times outcomes rest (i+1) start bsize texts items s k
    else if limitReached s then
      flushTail rate_limit times outcomes k texts items s
    else
      match l with
      | .malformed =>
        ingestLoop rate_limit times outcomes rest (i+1) start bsize texts items s k
      | .record p =>
        if text_to_embed p = "" then
          ingestLoop rate_limit times outcomes rest (i+1) start bsize texts items s k
        else
          let texts1 := texts ++ [text_to_embed p]
          let items1 := items ++ [p]
          if bsize ≤ texts1.length then
            let b := submitBatch rate_limit (times k) (outcomes k) texts1 items1 s
            if b.aborted then ⟨b.records, b.stats, [b.call], true⟩
            else
              let r := ingestLoop rate_limit times outcomes rest (i+1) start bsize [] [] b.stats (k+1)
              ⟨b.records ++ r.out, r.stats, b.call :: r.calls, r.aborted⟩
          else
            ingestLoop rate_limit times outcomes rest (i+1) start bsize texts1 items1 s k

/-- Embedding of `generate_and_quantize_embeddings` (`src/data/embed.py`
lines 74-181). `times` gives the value of `time.time()` at the k-th rate
check, `outcomes` the result of the k-th embedding call, and `t0` the clock
value at startup (line 91). The per-minute quota is the hardcoded
`rate_limit_per_minute = 1500` (line 85). -/
def generate_and_quantize_embeddings (times : ℕ → ℚ) (outcomes : ℕ → ApiOutcome)
    (input : List InputLine) (start : ℕ) (limit : Option ℕ) (batch_size : ℕ)
    (t0 : ℚ) : RunResult :=
  ingestLoop 1500 times outcomes input 0 start batch_size [] []
    ⟨0, 0, 0, t0, limit⟩ 0

/-- File-open modes relevant to the output sink. -/
inductive OpenMode where
  | write
  | append
deriving DecidableEq

/-- Contents of the output file right after `open(output_file, mode)`:
mode 'w' truncates, mode 'a' would keep the prior contents. -/
def openOutput (mode : OpenMode) (prior : List OutputRecord) : List OutputRecord :=
  match mode with
  | .write => []
  | .append => prior

/-- The output file at the end of a run: `generate_and_quantize_embeddings`
opens the output with mode 'w' (`src/data/embed.py` line 108) before reading
any input, then streams this run's records into it. -/
def runOutputFile (prior : List OutputRecord) (times : ℕ → ℚ)
    (outcomes : ℕ → ApiOutcome) (input : List InputLine) (start : ℕ)
    (limit : Option ℕ) (batch_size : ℕ) (t0 : ℚ) : List OutputRecord :=
  openOutput .write prior
    ++ (generate_and_quantize_embeddings times outcomes input start limit batch_size t0).out

/-- The times of the batch calls issued during a run. -/
def callTimes (r : RunResult) : List ℚ := r.calls.map Prod.fst

/-- Number of calls falling in the rolling 60-second window starting at `t`. -/
def callsInWindow (ts : List ℚ) (t : ℚ) : ℕ :=
  (ts.filter (fun u => t ≤ u ∧ u < t + 60)).length

/-- The rolling-window rate property: no 60-second window contains more than
`quota` issued calls. -/
def rollingWindowOK (ts : List ℚ) (quota : ℕ) : Prop :=
  ∀ t : ℚ, callsInWindow ts t ≤ quota

end Data

/-! ### Lemmas about the quantization primitives -/

lemma neg_one_le_clamp (x : ℚ) : -1 ≤ clamp x := by
  unfold clamp; split_ifs <;> linarith

lemma clamp_le_one (x : ℚ) : clamp x ≤ 1 := by
  unfold clamp; split_ifs <;> linarith

lemma clamp_idem (x : ℚ) : clamp (clamp x) = clamp x := by
  unfold clamp; split_ifs <;> first | rfl | linarith

lemma floor_le_roundHalfEven (x : ℚ) : ⌊x⌋ ≤ roundHalfEven x := by
  unfold roundHalfEven; split_ifs <;> omega

lemma roundHalfEven_bounds {x : ℚ} {n : ℤ} (h1 : -(n : ℚ) ≤ x) (h2 : x ≤ n) :
    -n ≤ roundHalfEven x ∧ roundHalfEven x ≤ n := by
  have hfl : -n ≤ ⌊x⌋ := by
    rw [show (-n : ℤ) = ⌊(-n : ℚ)⌋ by rw [← Int.cast_neg, Int.floor_intCast]]
    exact Int.floor_le_floor h1
  constructor
  · exact le_trans hfl (floor_le_roundHalfEven x)
  · unfold roundHalfEven
    have hup : ⌊x⌋ ≤ n := by
      rw [show (n : ℤ) = ⌊(n : ℚ)⌋ by rw [Int.floor_intCast]]
      exact Int.floor_le_floor h2
    split_ifs with hlt hgt heven
    · exact hup
    · -- here 2 * x ≥ 2 * ⌊x⌋ + 1, so ⌊x⌋ + 1/2 ≤ x ≤ n, hence ⌊x⌋ < n
      have hx : (2 : ℚ) * ⌊x⌋ + 1 ≤ 2 * x := by linarith
      have : ((⌊x⌋ : ℚ)) < n := by linarith
      have : ⌊x⌋ < n := by exact_mod_cast this
      omega
    · exact hup
    · have hx : (2 : ℚ) * ⌊x⌋ + 1 ≤ 2 * x := by linarith
      have : ((⌊x⌋ : ℚ)) < n := by linarith
      have : ⌊x⌋ < n := by exact_mod_cast this
      omega

lemma toInt8_eq_self {z : ℤ} (h1 : -128 ≤ z) (h2 : z ≤ 127) : toInt8 z = z := by
  unfold toInt8
  have hnn : 0 ≤ z + 128 := by omega
  have hlt : z + 128 < 256 := by omega
  rw [Int.emod_eq_of_lt hnn hlt]
  omega

/-- The per-component quantization map shared by both copies of
`create_int8_embedding`. -/
lemma quantize_component_no_wrap (x : ℚ) :
    toInt8 (roundHalfEven (clamp x * 127)) = roundHalfEven (clamp x * 127) := by
  have h1 : -(127 : ℚ) ≤ clamp x * 127 := by
    have := neg_one_le_clamp x; nlinarith
  have h2 : clamp x * 127 ≤ (127 : ℚ) := by
    have := clamp_le_one x; nlinarith
  have hb := roundHalfEven_bounds (n := 127) (by exact_mod_cast h1) (by exact_mod_cast h2)
  exact toInt8_eq_self (by omega) hb.2

lemma quantize_component_bounds (x : ℚ) :
    -127 ≤ toInt8 (roundHalfEven (clamp x * 127))
      ∧ toInt8 (roundHalfEven (clamp x * 127)) ≤ 127 := by
  have h1 : -(127 : ℚ) ≤ clamp x * 127 := by
    have := neg_one_le_clamp x; nlinarith
  have h2 : clamp x * 127 ≤ (127 : ℚ) := by
    have := clamp_le_one x; nlinarith
  have hb := roundHalfEven_bounds (n := 127) (by exact_mod_cast h1) (by exact_mod_cast h2)
  rw [quantize_component_no_wrap]
  exact hb

lemma data_create_int8_embedding_eq_map (v : List ℚ) :
    Data.create_int8_embedding v = v.map (fun x => toInt8 (roundHalfEven (clamp x * 127))) := by
  simp [Data.create_int8_embedding, List.map_map, Function.comp_def]

/-! ### Claim theorems about quantization -/

/-- Claim C1: the quantization function in the ingestion pipeline
(`src/data/embed.py`) and the one in the retrieval service
(`src/backend/main.py`) are extensionally equal: for every float vector both
produce the identical int8 output sequence. -/
theorem claim1_quantizers_extensionally_equal (v : List ℚ) :
    Data.create_int8_embedding v = Backend.create_int8_embedding v := rfl

/-- Claim C2: the quantizer returns a sequence of the same length as its input,
each component being the clamp of the input component to [-1.0, 1.0], scaled by
127.0, rounded to the nearest integer and cast to int8; every output component
lies in [-127, 127]. -/
theorem claim2_quantizer_functional_spec (v : List ℚ) :
    (Data.create_int8_embedding v).length = v.length
    ∧ (∀ i : ℕ, (Data.create_int8_embedding v)[i]? =
        (v[i]?).map (fun x => toInt8 (roundHalfEven (clamp x * 127))))
    ∧ (∀ i : ℕ, -127 ≤ (Data.create_int8_embedding v).getD i 0
        ∧ (Data.create_int8_embedding v).getD i 0 ≤ 127) := by
  rw [data_create_int8_embedding_eq_map]
  refine ⟨List.length_map _ _, fun i => List.getElem?_map .., fun i => ?_⟩
  rw [List.getD_eq_getElem?_getD, List.getElem?_map]
  cases hv : v[i]? with
  | none => simp
  | some x => simpa using quantize_component_bounds x

/-- Claim C9: quantization clamps out-of-range inputs before scaling: replacing
any component of the input by its clamp to [-1.0, 1.0] leaves the output
unchanged, and in particular quantizing [2.0, -5.0, 0.3] gives the same output
as quantizing [1.0, -1.0, 0.3]. -/
theorem claim9_quantizer_clamps_before_scaling :
    (∀ (v : List ℚ) (i : ℕ),
      Data.create_int8_embedding (v.set i (clamp (v.getD i 0)))
        = Data.create_int8_embedding v)
    ∧ Data.create_int8_embedding [2, -5, 3/10] = Data.create_int8_embedding [1, -1, 3/10] := by
  constructor
  · intro v i
    rw [data_create_int8_embedding_eq_map, data_create_int8_embedding_eq_map]
    induction v generalizing i with
    | nil => rfl
    | cons a t ih =>
      cases i with
      | zero => simp [clamp_idem]
      | succ j => simpa using ih j
  · have h1 : Data.create_int8_embedding [2, -5, 3/10] = [127, -127, 38] := by
      norm_num [Data.create_int8_embedding, clamp, roundHalfEven, toInt8]
    have h2 : Data.create_int8_embedding [1, -1, 3/10] = [127, -127, 38] := by
      norm_num [Data.create_int8_embedding, clamp, roundHalfEven, toInt8]
    rw [h1, h2]

/-! ### Claim theorem about the primary-category tie-break -/

lemma head_filter_eq_find (p : String → Bool) (d : String) (l : List String) :
    (match l.filter p with
     | [] => d
     | m :: _ => m) = (l.find? p).getD d := by
  induction l with
  | nil => rfl
  | cons a t ih =>
    by_cases h : p a
    · simp [List.filter_cons, h, List.find?_cons, Option.getD]
    · simp only [List.filter_cons, List.find?_cons, h]
      simpa using ih

/-- Claim C6: for a record with a non-empty normalized category collection,
`primary_category` is the first entry of the priority list
[cs.cv, cs.lg, cs.cl, cs.ai, cs.ne, cs.ro] that appears anywhere in the
collection, and the collection's own first element when no priority entry
appears; in particular ["cs.ro", "cs.lg"] yields "cs.lg" and ["math.ST"]
yields "math.ST". -/
theorem claim6_primary_category_tiebreak :
    (∀ cats : List String, cats ≠ [] →
      Backend.primary_category cats
        = (Backend.priority_categories.find? (fun p => p ∈ cats)).getD cats.headI)
    ∧ Backend.primary_category (Backend.categoryArray (.array ["cs.ro", "cs.lg"])) = "cs.lg"
    ∧ Backend.primary_category (Backend.categoryArray (.array ["math.ST"])) = "math.ST" := by
  refine ⟨fun cats _ => ?_, by decide, by decide⟩
  unfold Backend.primary_category Backend.matchedCategories
  exact head_filter_eq_find _ cats.headI Backend.priority_categories

/-- Claim C8: a search request whose query text is empty or longer than the
maximum length, or whose limit lies outside the allowed positive bounded
range, is rejected as a validation failure before any external call (MongoDB
ping, embedding backend, or vector search) is made. -/
theorem claim8_invalid_search_rejected_before_external_calls
    (pingOk : Bool) (embedResult : Option (List ℚ)) (searchResults : List String)
    (q : Backend.SearchQuery)
    (h : q.query.length = 0 ∨ 500 < q.query.length ∨ q.limit < 1 ∨ 100 < q.limit) :
    Backend.handleSearchRequest pingOk embedResult searchResults q
      = (Backend.SearchResponse.validationError, []) := by
  have hv : Backend.validSearchQuery q = false := by
    unfold Backend.validSearchQuery
    rcases h with h | h | h | h <;> simp <;> omega
  simp [Backend.handleSearchRequest, hv]

/-- Witness for claim C8's theorem at the empty query. -/
theorem claim8_invalid_search_rejected_before_external_calls_witness :
    Backend.handleSearchRequest true (some [0]) [] ⟨"", 50⟩
      = (Backend.SearchResponse.validationError, []) :=
  claim8_invalid_search_rejected_before_external_calls true (some [0]) [] ⟨"", 50⟩
    (Or.inl rfl)

/-! ### Lemmas about the ingestion pipeline state -/

namespace Data

lemma writeLoop_stats (pairs : List (PaperItem × List ℚ)) (s : Stats) :
    (writeLoop pairs s).2.1.limit = s.limit
    ∧ (writeLoop pairs s).2.1.requests_in_window = s.requests_in_window
    ∧ (writeLoop pairs s).2.1.window_start_time = s.window_start_time
    ∧ (writeLoop pairs s).2.1.count = s.count + (writeLoop pairs s).1.length
    ∧ (∀ n : ℕ, s.limit = some n → n ≠ 0 → s.count ≤ n → (writeLoop pairs s).2.1.count ≤ n) := by
  induction pairs generalizing s with
  | nil => simp [writeLoop]
  | cons pr rest ih =>
    obtain ⟨item, emb⟩ := pr
    by_cases h : limitReached s
    · simp [writeLoop, h]
    · rw [writeLoop]
      simp only [h, Bool.false_eq_true, if_false]
      generalize (if 100 ≤ s.since_last_log + 1 then 0 else s.since_last_log + 1) = X
      obtain ⟨i1, i2, i3, i4, i5⟩ := ih { s with count := s.count + 1, since_last_log := X }
      refine ⟨i1, i2, i3, ?_, ?_⟩
      · rw [i4]
        dsimp only
        simp only [List.length_cons]
        omega
      · intro n hn hn0 hcount
        have hlt : ¬ (n ≤ s.count) := by
          intro hle
          apply h
          simp [limitReached, hn, limitActive, hn0, hle]
        exact i5 n hn hn0 (by dsimp only; omega)

lemma process_batch_stats (texts : List String) (items : List PaperItem)
    (o : ApiOutcome) (s : Stats) :
    (process_batch texts items o s).stats.limit = s.limit
    ∧ (process_batch texts items o s).stats.window_start_time = s.window_start_time
    ∧ (process_batch texts items o s).stats.count
        = s.count + (process_batch texts items o s).records.length
    ∧ (∀ n : ℕ, s.limit = some n → n ≠ 0 → s.count ≤ n →
        (process_batch texts items o s).stats.count ≤ n) := by
  by_cases ht : texts = []
  · simp [process_batch, ht]
  · cases o with
    | success embs =>
      unfold process_batch
      rw [if_neg ht]
      dsimp only
      by_cases hg : embs ≠ [] ∧ embs.length = texts.length
      · obtain ⟨w1, w2, w3, w4, w5⟩ := writeLoop_stats (items.zip embs) s
        rw [if_pos hg]
        by_cases hc : (writeLoop (items.zip embs) s).2.2 = true
        · rw [if_pos hc]
          exact ⟨w1, w3, w4, fun n hn hn0 hcount => w5 n hn hn0 hcount⟩
        · rw [if_neg hc]
          exact ⟨w1, w3, w4, fun n hn hn0 hcount => w5 n hn hn0 hcount⟩
      · rw [if_neg hg]
        exact ⟨rfl, rfl, by simp, fun n _ _ hcount => hcount⟩
    | apiError keyInvalid =>
      unfold process_batch
      rw [if_neg ht]
      dsimp only
      by_cases hk : keyInvalid = true
      · rw [if_pos hk]
        exact ⟨rfl, rfl, by simp, fun n _ _ hcount => hcount⟩
      · rw [if_neg hk]
        exact ⟨rfl, rfl, by simp, fun n _ _ hcount => hcount⟩

lemma rateGate_stats (rl : ℕ) (t : ℚ) (s : Stats) :
    (rateGate rl t s).2.count = s.count
    ∧ (rateGate rl t s).2.since_last_log = s.since_last_log
    ∧ (rateGate rl t s).2.limit = s.limit := by
  unfold rateGate
  dsimp only
  split_ifs <;> exact ⟨rfl, rfl, rfl⟩

lemma rateGate_window_lt (rl : ℕ) (hrl : 0 < rl) (t : ℚ) (s : Stats) :
    (rateGate rl t s).2.requests_in_window < rl := by
  unfold rateGate
  dsimp only
  split_ifs <;> first | exact hrl | (dsimp only at *; omega)

lemma submitBatch_stats (rl : ℕ) (t : ℚ) (o : ApiOutcome)
    (texts : List String) (items : List PaperItem) (s : Stats) :
    (submitBatch rl t o texts items s).stats.limit = s.limit
    ∧ (submitBatch rl t o texts items s).stats.count
        = s.count + (submitBatch rl t o texts items s).records.length
    ∧ (∀ n : ℕ, s.limit = some n → n ≠ 0 → s.count ≤ n →
        (submitBatch rl t o texts items s).stats.count ≤ n) := by
  unfold submitBatch
  have hg := rateGate_stats rl t s
  have hp := process_batch_stats texts items o (rateGate rl t s).2
  exact ⟨by simp [hp.1, hg.2.2], by simp [hp.2.2.1, hg.1],
    fun n hn hn0 hc => hp.2.2.2 n (by rw [hg.2.2]; exact hn) hn0 (by rw [hg.1]; exact hc)⟩

lemma submitBatch_call_lt (rl : ℕ) (hrl : 0 < rl) (t : ℚ) (o : ApiOutcome)
    (texts : List String) (items : List PaperItem) (s : Stats) :
    (submitBatch rl t o texts items s).call.2 < rl := by
  unfold submitBatch
  exact rateGate_window_lt rl hrl t s

lemma flushTail_stats (rl : ℕ) (times : ℕ → ℚ) (outcomes : ℕ → ApiOutcome) (k : ℕ)
    (texts : List String) (items : List PaperItem) (s : Stats) :
    (flushTail rl times outcomes k texts items s).stats.limit = s.limit
    ∧ (flushTail rl times outcomes k texts items s).stats.count
        = s.count + (flushTail rl times outcomes k texts items s).out.length
    ∧ (∀ n : ℕ, s.limit = some n → n ≠ 0 → s.count ≤ n →
        (flushTail rl times outcomes k texts items s).stats.count ≤ n) := by
  unfold flushTail
  split_ifs with h
  · have hb := submitBatch_stats rl (times k) (outcomes k) texts items s
    exact ⟨hb.1, hb.2.1, hb.2.2⟩
  · simp

lemma ingestLoop_count (rl : ℕ) (times : ℕ → ℚ) (outcomes : ℕ → ApiOutcome)
    (lines : List InputLine) :
    ∀ (i start bsize : ℕ) (texts : List String) (items : List PaperItem)
      (s : Stats) (k : ℕ),
    (ingestLoop rl times outcomes lines i start bsize texts items s k).stats.limit = s.limit
    ∧ (ingestLoop rl times outcomes lines i start bsize texts items s k).stats.count
        = s.count + (ingestLoop rl times outcomes lines i start bsize texts items s k).out.length
    ∧ (∀ n : ℕ, s.limit = some n → n ≠ 0 → s.count ≤ n →
        (ingestLoop rl times outcomes lines i start bsize texts items s k).stats.count ≤ n) := by
  induction lines with
  | nil =>
    intro i start bsize texts items s k
    exact flushTail_stats rl times outcomes k texts items s
  | cons l rest ih =>
    intro i start bsize texts items s k
    rw [ingestLoop.eq_def]
    dsimp only
    by_cases hskip : i < start
    · simpa [hskip] using ih (i+1) start bsize texts items s k
    · simp only [hskip, if_false]
      by_cases hlim : limitReached s
      · simpa [hlim] using flushTail_stats rl times outcomes k texts items s
      · simp only [hlim, if_false, Bool.false_eq_true]
        cases l with
        | malformed => exact ih (i+1) start bsize texts items s k
        | record p =>
          by_cases hemp : text_to_embed p = ""
          · simpa [hemp] using ih (i+1) start bsize texts items s k
          · simp only [hemp, if_false]
            by_cases hfull : bsize ≤ (texts ++ [text_to_embed p]).length
            · simp only [hfull, if_true, ite_true]
              set b := submitBatch rl (times k) (outcomes k)
                (texts ++ [text_to_embed p]) (items ++ [p]) s with hb
              have hbs := submitBatch_stats rl (times k) (outcomes k)
                (texts ++ [text_to_embed p]) (items ++ [p]) s
              rw [← hb] at hbs
              by_cases hab : b.aborted
              · simp only [hab, if_true, ite_true]
                exact ⟨hbs.1, hbs.2.1, fun n hn hn0 hc => hbs.2.2 n hn hn0 hc⟩
              · simp only [hab, if_false, Bool.false_eq_true]
                have ihr := ih (i+1) start bsize [] [] b.stats (k+1)
                refine ⟨ihr.1.trans hbs.1, ?_, ?_⟩
                · show (ingestLoop rl times outcomes rest (i+1) start bsize [] [] b.stats (k+1)).stats.count
                    = s.count + (b.records
                        ++ (ingestLoop rl times outcomes rest (i+1) start bsize [] [] b.stats (k+1)).out).length
                  rw [ihr.2.1, hbs.2.1]
                  simp only [List.length_append]
                  omega
                · intro n hn hn0 hc
                  refine ihr.2.2 n ?_ hn0 ?_
                  · rw [hbs.1]; exact hn
                  · exact hbs.2.2 n hn hn0 hc
            · simp only [hfull, if_false]
              exact ih (i+1) start bsize (texts ++ [text_to_embed p]) (items ++ [p]) s k

lemma ingestLoop_skip (rl : ℕ) (times : ℕ → ℚ) (outcomes : ℕ → ApiOutcome) :
    ∀ (n : ℕ) (lines : List InputLine) (i bsize : ℕ) (texts : List String)
      (items : List PaperItem) (s : Stats) (k : ℕ),
    ingestLoop rl times outcomes lines i (i + n) bsize texts items s k
      = ingestLoop rl times outcomes (lines.drop n) (i + n) (i + n) bsize texts items s k := by
  intro n
  induction n with
  | zero => intro lines i bsize texts items s k; simp
  | succ m ih =>
    intro lines i bsize texts items s k
    cases lines with
    | nil => rfl
    | cons l rest =>
      rw [ingestLoop.eq_def]
      dsimp only
      rw [if_pos (by omega : i < i + (m + 1))]
      have e : i + (m + 1) = (i + 1) + m := by omega
      rw [e, List.drop_succ_cons]
      exact ih rest (i + 1) bsize texts items s k

lemma ingestLoop_start_irrelevant (rl : ℕ) (times : ℕ → ℚ) (outcomes : ℕ → ApiOutcome) :
    ∀ (lines : List InputLine) (i j start start1 bsize : ℕ) (texts : List String)
      (items : List PaperItem) (s : Stats) (k : ℕ),
    start ≤ i → start1 ≤ j →
    ingestLoop rl times outcomes lines i start bsize texts items s k
      = ingestLoop rl times outcomes lines j start1 bsize texts items s k := by
  intro lines
  induction lines with
  | nil => intro i j start start1 bsize texts items s k h1 h2; rfl
  | cons l rest ih =>
    intro i j start start1 bsize texts items s k h1 h2
    rw [ingestLoop.eq_def, ingestLoop.eq_def]
    dsimp only
    rw [if_neg (by omega : ¬ i < start), if_neg (by omega : ¬ j < start1)]
    by_cases hlim : limitReached s = true
    · rw [if_pos hlim, if_pos hlim]
    · rw [if_neg hlim, if_neg hlim]
      cases l with
      | malformed =>
        exact ih (i+1) (j+1) start start1 bsize texts items s k (by omega) (by omega)
      | record p =>
        dsimp only
        by_cases hemp : text_to_embed p = ""
        · rw [if_pos hemp, if_pos hemp]
          exact ih (i+1) (j+1) start start1 bsize texts items s k (by omega) (by omega)
        · rw [if_neg hemp, if_neg hemp]
          by_cases hfull : bsize ≤ (texts ++ [text_to_embed p]).length
          · rw [if_pos hfull, if_pos hfull]
            by_cases hab : (submitBatch rl (times k) (outcomes k)
                (texts ++ [text_to_embed p]) (items ++ [p]) s).aborted = true
            · rw [if_pos hab, if_pos hab]
            · rw [if_neg hab, if_neg hab]
              rw [ih (i+1) (j+1) start start1 bsize [] []
                (submitBatch rl (times k) (outcomes k)
                  (texts ++ [text_to_embed p]) (items ++ [p]) s).stats (k+1)
                (by omega) (by omega)]
          · rw [if_neg hfull, if_neg hfull]
            exact ih (i+1) (j+1) start start1 bsize (texts ++ [text_to_embed p])
              (items ++ [p]) s k (by omega) (by omega)

lemma flushTail_calls_lt (rl : ℕ) (hrl : 0 < rl) (times : ℕ → ℚ)
    (outcomes : ℕ → ApiOutcome) (k : ℕ) (texts : List String)
    (items : List PaperItem) (s : Stats) :
    ∀ c ∈ (flushTail rl times outcomes k texts items s).calls, c.2 < rl := by
  intro c hc
  unfold flushTail at hc
  split_ifs at hc with h
  · simp only [List.mem_singleton] at hc
    rw [hc]
    exact submitBatch_call_lt rl hrl (times k) (outcomes k) texts items s
  · simp at hc

lemma ingestLoop_calls_lt (rl : ℕ) (hrl : 0 < rl) (times : ℕ → ℚ)
    (outcomes : ℕ → ApiOutcome) :
    ∀ (lines : List InputLine) (i start bsize : ℕ) (texts : List String)
      (items : List PaperItem) (s : Stats) (k : ℕ),
    ∀ c ∈ (ingestLoop rl times outcomes lines i start bsize texts items s k).calls,
      c.2 < rl := by
  intro lines
  induction lines with
  | nil =>
    intro i start bsize texts items s k
    exact flushTail_calls_lt rl hrl times outcomes k texts items s
  | cons l rest ih =>
    intro i start bsize texts items s k c hc
    rw [ingestLoop.eq_def] at hc
    dsimp only at hc
    by_cases hskip : i < start
    · rw [if_pos hskip] at hc
      exact ih (i+1) start bsize texts items s k c hc
    · rw [if_neg hskip] at hc
      by_cases hlim : limitReached s = true
      · rw [if_pos hlim] at hc
        exact flushTail_calls_lt rl hrl times outcomes k texts items s c hc
      · rw [if_neg hlim] at hc
        cases l with
        | malformed => exact ih (i+1) start bsize texts items s k c hc
        | record p =>
          dsimp only at hc
          by_cases hemp : text_to_embed p = ""
          · rw [if_pos hemp] at hc
            exact ih (i+1) start bsize texts items s k c hc
          · rw [if_neg hemp] at hc
            by_cases hfull : bsize ≤ (texts ++ [text_to_embed p]).length
            · rw [if_pos hfull] at hc
              by_cases hab : (submitBatch rl (times k) (outcomes k)
                  (texts ++ [text_to_embed p]) (items ++ [p]) s).aborted = true
              · rw [if_pos hab] at hc
                dsimp only at hc
                simp only [List.mem_singleton] at hc
                rw [hc]
                exact submitBatch_call_lt rl hrl (times k) (outcomes k)
                  (texts ++ [text_to_embed p]) (items ++ [p]) s
              · rw [if_neg hab] at hc
                dsimp only at hc
                rcases List.mem_cons.mp hc with h1 | h1
                · rw [h1]
                  exact submitBatch_call_lt rl hrl (times k) (outcomes k)
                    (texts ++ [text_to_embed p]) (items ++ [p]) s
                · exact ih (i+1) start bsize [] [] _ (k+1) c h1
            · rw [if_neg hfull] at hc
              exact ih (i+1) start bsize (texts ++ [text_to_embed p]) (items ++ [p]) s k c hc

lemma mismatch_run_calls (n : ℕ) :
    ∀ (i k : ℕ),
    ingestLoop 1500 (fun _ => 0) (fun _ => ApiOutcome.success [])
        (List.replicate n (InputLine.record ⟨"A", "B", "C"⟩)) i 0 1 [] []
        ⟨0, 0, 0, 0, none⟩ k
      = ⟨[], ⟨0, 0, 0, 0, none⟩, List.replicate n ((0 : ℚ), (0 : ℕ)), false⟩ := by
  induction n with
  | zero => intro i k; rfl
  | succ m ih =>
    intro i k
    rw [List.replicate_succ, ingestLoop.eq_def]
    dsimp only
    rw [if_neg (by omega : ¬ i < 0)]
    rw [if_neg (by decide : ¬ limitReached ⟨0, 0, 0, 0, none⟩ = true)]
    rw [if_neg (by decide : ¬ text_to_embed ⟨"A", "B", "C"⟩ = "")]
    rw [if_pos (by decide : 1 ≤ (([] : List String)
      ++ [text_to_embed ⟨"A", "B", "C"⟩]).length)]
    have hb : submitBatch 1500 0 (ApiOutcome.success [])
        ([] ++ [text_to_embed ⟨"A", "B", "C"⟩]) ([] ++ [(⟨"A", "B", "C"⟩ : PaperItem)])
        ⟨0, 0, 0, 0, none⟩
        = ⟨[], ⟨0, 0, 0, 0, none⟩, (0, 0), false⟩ := by
      norm_num [submitBatch, rateGate, process_batch]
    rw [hb]
    dsimp only
    rw [ih (i+1) (k+1)]
    simp [List.replicate_succ]

end Data

/-! ### Claim theorems about the ingestion pipeline -/

/-- Claim C3 (counterexample): the rolling-window rate bound fails. A run over
1501 one-record batches whose embedding responses all carry a mismatched
vector count issues 1501 batch calls inside one 60-second window: mismatched
batches never increment `requests_in_window`, so the limiter never sleeps. -/
theorem claim3_rolling_window_counterexample :
    ¬ Data.rollingWindowOK
        (Data.callTimes (Data.generate_and_quantize_embeddings (fun _ => 0)
          (fun _ => Data.ApiOutcome.success [])
          (List.replicate 1501 (Data.InputLine.record ⟨"A", "B", "C"⟩)) 0 none 1 0))
        1500 := by
  intro h
  have h0 := h 0
  unfold Data.generate_and_quantize_embeddings at h0
  rw [Data.mismatch_run_calls 1501 0 0] at h0
  unfold Data.callTimes Data.callsInWindow at h0
  simp only [List.map_replicate] at h0
  rw [List.filter_replicate] at h0
  norm_num at h0

/-- Claim C3 (amended): the limiter enforces a fixed window, not a rolling
one, and counts only batches that return well-formed or erroring responses;
what holds is that every batch call is issued while the counted requests in
the current fixed 60-second window are strictly below the per-minute quota
1500, so at most 1500 counted calls occur per fixed window. -/
theorem claim3_fixed_window_quota (times : ℕ → ℚ) (outcomes : ℕ → Data.ApiOutcome)
    (input : List Data.InputLine) (start : ℕ) (limit : Option ℕ) (batch_size : ℕ)
    (t0 : ℚ) :
    ∀ c ∈ (Data.generate_and_quantize_embeddings times outcomes input start limit
        batch_size t0).calls, c.2 < 1500 := by
  intro c hc
  exact Data.ingestLoop_calls_lt 1500 (by omega) times outcomes input 0 start
    batch_size [] [] ⟨0, 0, 0, t0, limit⟩ 0 c hc

/-- Witness for claim C3's amended theorem at a concrete one-batch run. -/
theorem claim3_fixed_window_quota_witness :
    ((0 : ℚ), (0 : ℕ)).2 < 1500 :=
  claim3_fixed_window_quota (fun _ => 0) (fun _ => Data.ApiOutcome.success [])
    (List.replicate 1 (Data.InputLine.record ⟨"A", "B", "C"⟩)) 0 none 1 0 (0, 0)
    (by
      unfold Data.generate_and_quantize_embeddings
      rw [Data.mismatch_run_calls 1 0 0]
      simp)

/-- Claim C7: a run with `startOffset = k` behaves exactly like a fresh run
whose input is the original corpus with its first `k` lines removed: the
first `k` input lines contribute nothing and the rest is processed
identically (with the same skip rules for unparseable lines and empty
concatenated text). -/
theorem claim7_start_offset_resumes (times : ℕ → ℚ) (outcomes : ℕ → Data.ApiOutcome)
    (input : List Data.InputLine) (k : ℕ) (limit : Option ℕ) (batch_size : ℕ) (t0 : ℚ) :
    Data.generate_and_quantize_embeddings times outcomes input k limit batch_size t0
      = Data.generate_and_quantize_embeddings times outcomes (input.drop k) 0 limit
          batch_size t0 := by
  unfold Data.generate_and_quantize_embeddings
  have h1 := Data.ingestLoop_skip 1500 times outcomes k input 0 batch_size [] []
    ⟨0, 0, 0, t0, limit⟩ 0
  simp only [Nat.zero_add] at h1
  rw [h1]
  exact Data.ingestLoop_start_irrelevant 1500 times outcomes (input.drop k) k 0 k 0
    batch_size [] [] ⟨0, 0, 0, t0, limit⟩ 0 (le_refl k) (Nat.le_refl 0)

/-- Claim C4: a batch whose embedding response carries a vector count
different from the input text count contributes zero records to the output
and does not abort the run; the pipeline continues with the next batch, as
the concrete two-batch run (first batch mismatched, second well-formed)
shows. -/
theorem claim4_mismatched_batch_discarded :
    (∀ (texts : List String) (items : List Data.PaperItem)
       (embs : List (List ℚ)) (s : Data.Stats),
      embs.length ≠ texts.length →
      Data.process_batch texts items (.success embs) s = ⟨[], s, false⟩)
    ∧ (Data.generate_and_quantize_embeddings (fun _ => 0)
        (fun k => if k = 0 then Data.ApiOutcome.success [] else .success [[(1:ℚ)/2]])
        [.record ⟨"A","B","C"⟩, .record ⟨"D","E","F"⟩] 0 none 1 0).out
          = [⟨⟨"D","E","F"⟩, [64]⟩]
    ∧ (Data.generate_and_quantize_embeddings (fun _ => 0)
        (fun k => if k = 0 then Data.ApiOutcome.success [] else .success [[(1:ℚ)/2]])
        [.record ⟨"A","B","C"⟩, .record ⟨"D","E","F"⟩] 0 none 1 0).aborted = false := by
  refine ⟨?_, ?_, ?_⟩
  · intro texts items embs s h
    unfold Data.process_batch
    dsimp only
    split_ifs with ht hg hc
    · rfl
    · exact absurd hg.2 h
    · exact absurd hg.2 h
    · rfl
  · have h1 : (Data.text_to_embed ⟨"A","B","C"⟩ = "") = False := by decide
    have h2 : (Data.text_to_embed ⟨"D","E","F"⟩ = "") = False := by decide
    norm_num [Data.generate_and_quantize_embeddings, Data.ingestLoop, Data.flushTail,
      Data.submitBatch, Data.rateGate, Data.process_batch, Data.writeLoop,
      Data.limitReached, Data.limitActive, h1, h2,
      Data.create_int8_embedding, clamp, roundHalfEven, toInt8]
  · have h1 : (Data.text_to_embed ⟨"A","B","C"⟩ = "") = False := by decide
    have h2 : (Data.text_to_embed ⟨"D","E","F"⟩ = "") = False := by decide
    norm_num [Data.generate_and_quantize_embeddings, Data.ingestLoop, Data.flushTail,
      Data.submitBatch, Data.rateGate, Data.process_batch, Data.writeLoop,
      Data.limitReached, Data.limitActive, h1, h2,
      Data.create_int8_embedding, clamp, roundHalfEven, toInt8]

/-- Witness for claim C4's theorem: a one-text batch answered with zero
vectors writes nothing and does not abort. -/
theorem claim4_mismatched_batch_discarded_witness :
    Data.process_batch ["A B C"] [⟨"A","B","C"⟩] (.success []) ⟨0, 0, 0, 0, none⟩
      = ⟨[], ⟨0, 0, 0, 0, none⟩, false⟩ :=
  claim4_mismatched_batch_discarded.1 ["A B C"] [⟨"A","B","C"⟩] [] ⟨0, 0, 0, 0, none⟩
    (by decide)

/-- Claim C5 (counterexample): with the non-null item limit 0, a run over one
record still writes one output record, because `if processed_stats['limit']`
treats the limit 0 as falsy; so the output size is not bounded by the limit. -/
theorem claim5_item_limit_zero_counterexample :
    ¬ ((Data.generate_and_quantize_embeddings (fun _ => 0)
        (fun _ => Data.ApiOutcome.success [[0]])
        [.record ⟨"A","B","C"⟩] 0 (some 0) 1 0).out.length ≤ 0) := by
  have h1 : (Data.text_to_embed ⟨"A","B","C"⟩ = "") = False := by decide
  norm_num [Data.generate_and_quantize_embeddings, Data.ingestLoop, Data.flushTail,
    Data.submitBatch, Data.rateGate, Data.process_batch, Data.writeLoop,
    Data.limitReached, Data.limitActive, h1,
    Data.create_int8_embedding, clamp, roundHalfEven, toInt8]

/-- Claim C5 (amended): for every run with a positive item limit `n`, the
number of records written never exceeds `n`; the pipeline stops producing
output once the cumulative embedded count reaches the limit, including
mid-batch. -/
theorem claim5_item_limit_respected (times : ℕ → ℚ) (outcomes : ℕ → Data.ApiOutcome)
    (input : List Data.InputLine) (start batch_size : ℕ) (t0 : ℚ)
    (n : ℕ) (h : 0 < n) :
    (Data.generate_and_quantize_embeddings times outcomes input start (some n)
        batch_size t0).out.length ≤ n := by
  unfold Data.generate_and_quantize_embeddings
  have hc := Data.ingestLoop_count 1500 times outcomes input 0 start batch_size [] []
    ⟨0, 0, 0, t0, some n⟩ 0
  have hb := hc.2.2 n rfl (by omega) (by simp)
  omega

/-- Witness for claim C5's amended theorem at a concrete run with limit 1. -/
theorem claim5_item_limit_respected_witness :
    (Data.generate_and_quantize_embeddings (fun _ => 0)
        (fun _ => Data.ApiOutcome.success [[0]])
        [.record ⟨"A","B","C"⟩] 0 (some 1) 1 0).out.length ≤ 1 :=
  claim5_item_limit_respected (fun _ => 0) (fun _ => Data.ApiOutcome.success [[0]])
    [.record ⟨"A","B","C"⟩] 0 1 0 1 (by decide)

/-- Claim C10: the run opens the output file in truncating write mode before
reading any input, so the file after the run holds exactly this run's
records: whatever a previous run wrote is destroyed, for every `prior`
content and every resume offset `start`. -/
theorem claim10_output_file_truncated (prior : List Data.OutputRecord)
    (times : ℕ → ℚ) (outcomes : ℕ → Data.ApiOutcome) (input : List Data.InputLine)
    (start : ℕ) (limit : Option ℕ) (batch_size : ℕ) (t0 : ℚ) :
    Data.runOutputFile prior times outcomes input start limit batch_size t0
      = (Data.generate_and_quantize_embeddings times outcomes input start limit
          batch_size t0).out := rfl

/-- Witness for claim C6's theorem at the concrete input ["cs.ro", "cs.lg"]. -/
theorem claim6_primary_category_tiebreak_witness :
    Backend.primary_category ["cs.ro", "cs.lg"]
      = (Backend.priority_categories.find?
          (fun p => p ∈ (["cs.ro", "cs.lg"] : List String))).getD
          (["cs.ro", "cs.lg"] : List String).headI :=
  claim6_primary_category_tiebreak.1 ["cs.ro", "cs.lg"] (by decide)

end ArXade
